import Mathlib

/-!
Verification of the klog-to-logr driver (`main.go`).

We shallowly embed the driver's output sink and CLI loop:
  * a file-system model (association list from path to permission+content),
  * `writeTempFile`, `diff` and `diffFixHandler.handleFix` translated from
    `main.go`, with the outcomes of OS / subprocess calls supplied by an
    explicit environment record,
  * `filepath.Join` / `filepath.Clean` (POSIX rules) modelled from the Go
    standard library, since `handleFix` builds its diff header with them,
  * the `main` argument loop with the fixer package's `FixPackage` treated as
    an external collaborator whose per-package outcome (writes performed,
    error) is supplied by the environment.

Byte sequences are modelled as `String`; errors as `Option String`.
-/

namespace KlogToLogr

/-- A file on disk: permission bits and contents. -/
structure FSFile where
  perm : Nat
  content : String
  deriving DecidableEq, Repr

/-- File system: association list from path to file. -/
abbrev FS := List (String × FSFile)

/-- Look a path up in the file system. -/
def fsLookup (fs : FS) (n : String) : Option FSFile :=
  (List.find? (fun e => e.1 = n) fs).map (·.2)

/-- Remove a path (model of `os.Remove`; removing a missing path is a no-op,
as the code ignores `os.Remove` errors). -/
def fsRemove (fs : FS) (n : String) : FS :=
  List.filter (fun e => ¬ (e.1 = n)) fs

/-- Create-or-replace a path with the given file. -/
def fsSet (fs : FS) (n : String) (f : FSFile) : FS :=
  (n, f) :: fsRemove fs n

/-- Model of `ioutil.WriteFile` / `os.OpenFile(..., O_CREATE|O_TRUNC, perm)`:
an existing file keeps its permission bits and gets its contents replaced; a
missing file is created with the given permission bits. -/
def fsWriteFile (fs : FS) (n : String) (content : String) (perm : Nat) : FS :=
  match fsLookup fs n with
  | some f => fsSet fs n ⟨f.perm, content⟩
  | none => fsSet fs n ⟨perm, content⟩

/-! ### writeTempFile -/

/-- Environment for one `writeTempFile` call: whether `ioutil.TempFile`
fails, the random suffix it picks when it succeeds, and whether the
`Write` and `Close` calls fail. -/
structure WriteTempEnv where
  createErr : Option String
  suffix : String
  writeErr : Option String
  closeErr : Option String
  deriving Repr

/-- The name `ioutil.TempFile(dir, pfx)` picks: `pfx` plus a random suffix in
`dir`, or in the default temp dir (`/tmp`) when `dir` is empty. -/
def tempFileName (dir pfx suffix : String) : String :=
  (if dir = "" then "/tmp" else dir) ++ "/" ++ pfx ++ suffix

/-- Result of `writeTempFile`: resulting file system plus Go's
`(string, error)` pair. -/
structure TempResult where
  fs : FS
  name : String
  err : Option String

/-- `writeTempFile(dir, prefix, data)` from `main.go`: create a temp file,
write `data`, close (a write error takes precedence over a close error); on
a write or close error remove the file and return `("", err)`.
(`ioutil.TempFile` creates with mode `0600` = 384.) -/
def writeTempFile (env : WriteTempEnv) (dir pfx : String) (data : String)
    (fs : FS) : TempResult :=
  match env.createErr with
  | some e => ⟨fs, "", some e⟩
  | none =>
    match env.writeErr, env.closeErr with
    | some e, _ =>
      ⟨fsRemove (fsSet fs (tempFileName dir pfx env.suffix) ⟨384, data⟩)
          (tempFileName dir pfx env.suffix), "", some e⟩
    | none, some e =>
      ⟨fsRemove (fsSet fs (tempFileName dir pfx env.suffix) ⟨384, data⟩)
          (tempFileName dir pfx env.suffix), "", some e⟩
    | none, none =>
      ⟨fsSet fs (tempFileName dir pfx env.suffix) ⟨384, data⟩,
        tempFileName dir pfx env.suffix, none⟩

/-! ### diff -/

/-- Environment for one `diff` call: the two `writeTempFile` environments and
the combined output / error of the external `diff -u` subprocess. -/
structure DiffEnv where
  wtf1 : WriteTempEnv
  wtf2 : WriteTempEnv
  cmdOutput : String
  cmdErr : Option String
  deriving Repr

/-- Result of `diff`: resulting file system plus Go's `(data, err)` pair. -/
structure DiffResult where
  fs : FS
  data : String
  err : Option String

/-- `diff(b1, b2)` from `main.go`: write both byte sequences to temp files
(each removed again on every exit path: `writeTempFile` cleans up after
itself, and the two `defer os.Remove` calls run in LIFO order on return),
run `diff -u`, and clear the error whenever the subprocess produced output. -/
def diff (env : DiffEnv) (b1 b2 : String) (fs : FS) : DiffResult :=
  match writeTempFile env.wtf1 "" "kfix" b1 fs with
  | ⟨fs1, _, some e⟩ => ⟨fs1, "", some e⟩
  | ⟨fs1, n1, none⟩ =>
    match writeTempFile env.wtf2 "" "kfix" b2 fs1 with
    | ⟨fs2, _, some e⟩ => ⟨fsRemove fs2 n1, "", some e⟩
    | ⟨fs2, n2, none⟩ =>
      ⟨fsRemove (fsRemove fs2 n2) n1, env.cmdOutput,
        if env.cmdOutput.length > 0 then none else env.cmdErr⟩

/-! ### filepath.Clean / filepath.Join (POSIX)

`handleFix` prints `filepath.Join("fixed", info.Name)` in its diff header, so
we model the Go standard library's lexical path cleaning: collapse repeated
separators, drop `.` elements, resolve inner `..` against the preceding
element, drop leading `..` of a rooted path. -/

/-- Split a character list on `/` (keeping empty segments). -/
def splitSlash : List Char → List (List Char)
  | [] => [[]]
  | c :: rest =>
    if c = '/' then [] :: splitSlash rest
    else
      match splitSlash rest with
      | [] => [[c]]
      | h :: t => (c :: h) :: t

/-- Process one path element against the stack of kept elements (stack is in
reverse order); implements the element rules of `filepath.Clean`. -/
def cleanPush (rooted : Bool) (stack : List (List Char)) (comp : List Char) :
    List (List Char) :=
  if comp = [] ∨ comp = ['.'] then stack
  else if comp = ['.', '.'] then
    match stack with
    | [] => if rooted then [] else [['.', '.']]
    | top :: rest => if top = ['.', '.'] then comp :: stack else rest
  else comp :: stack

/-- Join path elements with `/`. -/
def intercalateSlash : List (List Char) → List Char
  | [] => []
  | [x] => x
  | x :: y :: rest => x ++ '/' :: intercalateSlash (y :: rest)

/-- `filepath.Clean` on a character list. -/
def cleanList (l : List Char) : List Char :=
  match l with
  | [] => ['.']
  | c :: _ =>
    let rooted := c = '/'
    let kept := ((splitSlash l).foldl (cleanPush rooted) []).reverse
    match kept with
    | [] => if rooted then ['/'] else ['.']
    | _ => if rooted then '/' :: intercalateSlash kept else intercalateSlash kept

/-- Model of Go `path/filepath.Clean` (POSIX). -/
def filepathClean (s : String) : String :=
  ⟨cleanList s.data⟩

/-- Model of Go `path/filepath.Join` on two elements: empty elements are
skipped, the rest are joined with `/` and the result is Cleaned; all-empty
input gives `""`. -/
def filepathJoin (a b : String) : String :=
  if a = "" then (if b = "" then "" else filepathClean b)
  else if b = "" then filepathClean a
  else filepathClean (a ++ "/" ++ b)

/-! ### diffFixHandler.handleFix -/

/-- `readFile` from `main.go`: open and read a file; fails when the file does
not exist or when the environment injects an I/O error. -/
def readFile (readErr : Option String) (fs : FS) (n : String) :
    Except String String :=
  match fsLookup fs n with
  | none => .error "no such file"
  | some f =>
    match readErr with
    | some e => .error e
    | none => .ok f.content

/-- Environment for one `handleFix` call: injected read error, result of
`fixer.GofmtFile` (external fixer package, supplied at the interface), the
diff-subprocess environment, and the result of `ioutil.WriteFile`. -/
structure HandleFixEnv where
  readErr : Option String
  gofmt : Except String String
  dEnv : DiffEnv
  writeErr : Option String

/-- Result of `handleFix`: resulting file system, returned error, and the
bytes emitted on standard output. -/
structure HandleResult where
  fs : FS
  err : Option String
  out : String

/-- `diffFixHandler.handleFix` from `main.go`: read the original source,
reformat the AST, then either print `diff <name> <Join("fixed", name)>`
followed by the diff data (diff mode) or write the new source to the
original path with permission argument `0` (write mode). -/
def handleFix (env : HandleFixEnv) (doDiff : Bool) (name : String) (fs : FS) :
    HandleResult :=
  match readFile env.readErr fs name with
  | .error e => ⟨fs, some e, ""⟩
  | .ok src =>
    match env.gofmt with
    | .error e => ⟨fs, some e, ""⟩
    | .ok newSrc =>
      if doDiff then
        match diff env.dEnv src newSrc fs with
        | ⟨fs2, _, some e⟩ => ⟨fs2, some ("computing diff: " ++ e), ""⟩
        | ⟨fs2, data, none⟩ =>
          ⟨fs2, none,
            "diff " ++ name ++ " " ++ filepathJoin "fixed" name ++ "\n" ++ data⟩
      else
        match env.writeErr with
        | some e => ⟨fs, some e, ""⟩
        | none => ⟨fsWriteFile fs name newSrc 0, none, ""⟩

/-! ### main -/

/-- `fixer.Fix` as `main.go` uses it: a named, described rewrite unit (the
`Execute` function is irrelevant to the driver's flow). -/
structure Fix where
  name : String
  description : String
  deriving DecidableEq, Repr

/-- Insert a fix into a name-sorted list. -/
def insertByName (f : Fix) : List Fix → List Fix
  | [] => [f]
  | g :: rest => if f.name < g.name then f :: g :: rest else g :: insertByName f rest

/-- Model of `sort.Sort(byName(fixes))` in `usage`: sort by `Name`
lexicographically. -/
def sortByName (l : List Fix) : List Fix :=
  l.foldr insertByName []

/-- Outcome of processing one path argument: the result of `imp.Import`, the
file writes `fixer.FixPackage` performs through `handleFix` before it
returns (external fixer package, supplied at the interface), and its
returned error. -/
structure ArgEnv where
  importErr : Option String
  fixWrites : List (String × String)
  fixErr : Option String

/-- Environment of one `main` run after flag parsing: the `os.Getwd` result
and, per path argument, the argument string with its outcome. -/
structure MainEnv where
  getwdErr : Option String
  args : List (String × ArgEnv)

/-- Apply the file writes a package's fix run performs: each is
`ioutil.WriteFile(name, newSrc, 0)` (write mode). -/
def applyWrites (fs : FS) (ws : List (String × String)) : FS :=
  ws.foldl (fun a w => fsWriteFile a w.1 w.2 0) fs

/-- Apply, in order, all writes the given (successful) arguments perform. -/
def applyArgWrites (fs : FS) (l : List (String × ArgEnv)) : FS :=
  l.foldl (fun a p => applyWrites a p.2.fixWrites) fs

/-- Result of the argument loop. -/
structure LoopResult where
  exitCode : Nat
  fs : FS
  attempted : List String
  reportedPath : Option String
  abortedPkg : Option (String × String)

/-- The `for i := 0; i < flag.NArg(); i++` loop of `main`: import each
argument (exit 1 on failure, reporting the path), run `fixer.FixPackage`
(its writes land on disk even when it then fails; exit 5 on failure,
reporting the package and cause), and exit 0 after the last argument. -/
def processArgs (fs : FS) : List (String × ArgEnv) → LoopResult
  | [] => ⟨0, fs, [], none, none⟩
  | (arg, a) :: rest =>
    match a.importErr with
    | some _ => ⟨1, fs, [arg], some arg, none⟩
    | none =>
      let fs1 := applyWrites fs a.fixWrites
      match a.fixErr with
      | some e => ⟨5, fs1, [arg], none, some (arg, e)⟩
      | none =>
        let r := processArgs fs1 rest
        ⟨r.exitCode, r.fs, arg :: r.attempted, r.reportedPath, r.abortedPkg⟩

/-- Result of one `main` run: exit code, final file system, the arguments
attempted, error reporting, the fixes list handed to the `fixer.Fixer`
engine (`none` when the run exits before constructing it), and the fixes as
displayed by `usage` (`none` when `usage` was not invoked). -/
structure MainResult where
  exitCode : Nat
  fs : FS
  attempted : List String
  reportedPath : Option String
  abortedPkg : Option (String × String)
  engineFixes : Option (List Fix)
  usageFixes : Option (List Fix)

/-- `main` from `main.go`, parameterized by the initial `allFixes` list: with
no arguments, `usage` sorts the fixes by name for display and exits 93 (so
its in-place sort of the shared slice never reaches the engine);
otherwise `os.Getwd` failure exits 1, and the `fixer.Fixer` is constructed
with `Fixes: allFixes` unsorted before the argument loop runs. -/
def mainRun (allFixes : List Fix) (env : MainEnv) (fs : FS) : MainResult :=
  if env.args.isEmpty then
    ⟨93, fs, [], none, none, none, some (sortByName allFixes)⟩
  else
    match env.getwdErr with
    | some _ => ⟨1, fs, [], none, none, none, none⟩
    | none =>
      let r := processArgs fs env.args
      ⟨r.exitCode, r.fs, r.attempted, r.reportedPath, r.abortedPkg,
        some allFixes, none⟩

/-- The first failure a run of the argument loop encounters, with its kind. -/
inductive FailKind where
  | importFail
  | fixFail
  deriving DecidableEq, Repr

/-- First failing argument of a run and whether it failed at import (package
resolution) or at fix application. -/
def firstFailure : List (String × ArgEnv) → Option (String × FailKind)
  | [] => none
  | (arg, a) :: rest =>
    match a.importErr with
    | some _ => some (arg, .importFail)
    | none =>
      match a.fixErr with
      | some _ => some (arg, .fixFail)
      | none => firstFailure rest

/-! ### File-system lemmas -/

theorem fsLookup_eq_none_iff {fs : FS} {n : String} :
    fsLookup fs n = none ↔ ∀ e ∈ fs, e.1 ≠ n := by
  simp [fsLookup, List.find?_eq_none]

theorem fsRemove_eq_self {fs : FS} {n : String} (h : fsLookup fs n = none) :
    fsRemove fs n = fs := by
  have h' := fsLookup_eq_none_iff.mp h
  unfold fsRemove
  rw [List.filter_eq_self]
  intro a ha
  simpa using h' a ha

theorem fsRemove_fsSet_self (fs : FS) (n : String) (f : FSFile) :
    fsRemove (fsSet fs n f) n = fsRemove fs n := by
  simp [fsSet, fsRemove, List.filter_filter]

theorem fsRemove_fsSet_ne (fs : FS) {n m : String} (f : FSFile) (h : n ≠ m) :
    fsRemove (fsSet fs m f) n = fsSet (fsRemove fs n) m f := by
  have hmn : ¬ (m = n) := fun hc => h hc.symm
  unfold fsSet fsRemove
  rw [List.filter_cons, if_pos (by simp [hmn])]
  rw [List.filter_filter, List.filter_filter]
  exact congrArg _ (List.filter_congr (fun a _ => by simp [Bool.and_comm]))

theorem fsLookup_fsSet_self (fs : FS) (n : String) (f : FSFile) :
    fsLookup (fsSet fs n f) n = some f := by
  simp [fsLookup, fsSet, List.find?]

/-! ### writeTempFile lemmas -/

theorem tempFileName_ne_empty (dir pfx suffix : String) :
    tempFileName dir pfx suffix ≠ "" := by
  unfold tempFileName
  intro h
  have h2 := congrArg String.length h
  simp [String.length_append] at h2
  exact absurd h2.1.1.2 (by decide)

theorem string_length_pos {s : String} (h : s ≠ "") : 0 < s.length := by
  cases s with
  | mk data =>
    cases data with
    | nil => exact absurd rfl h
    | cons c cs => simp [String.length]

/-- On success, `writeTempFile` creates exactly one file, named
`tempFileName`, holding `data`. -/
theorem writeTempFile_ok (env : WriteTempEnv) (dir pfx data : String)
    (fs : FS) (hc : env.createErr = none) (hw : env.writeErr = none)
    (hcl : env.closeErr = none) :
    writeTempFile env dir pfx data fs =
      ⟨fsSet fs (tempFileName dir pfx env.suffix) ⟨384, data⟩,
        tempFileName dir pfx env.suffix, none⟩ := by
  simp [writeTempFile, hc, hw, hcl]

/-- On failure, `writeTempFile` leaves a fresh file system unchanged and
returns an empty name. -/
theorem writeTempFile_err (env : WriteTempEnv) (dir pfx data : String)
    (fs : FS)
    (hfresh : fsLookup fs (tempFileName dir pfx env.suffix) = none)
    (h : (writeTempFile env dir pfx data fs).err ≠ none) :
    writeTempFile env dir pfx data fs =
      ⟨fs, "", (writeTempFile env dir pfx data fs).err⟩ := by
  cases hc : env.createErr with
  | some e => simp [writeTempFile, hc]
  | none =>
    cases hw : env.writeErr with
    | some e =>
      simp [writeTempFile, hc, hw, fsRemove_fsSet_self, fsRemove_eq_self hfresh]
    | none =>
      cases hcl : env.closeErr with
      | some e =>
        simp [writeTempFile, hc, hw, hcl, fsRemove_fsSet_self,
          fsRemove_eq_self hfresh]
      | none => simp [writeTempFile, hc, hw, hcl] at h

/-- C9: `writeTempFile` is atomic with respect to errors: it returns an
error exactly when creating, writing or closing the temp file fails; on
error the returned name is empty and the temp file does not remain on disk
(a fresh file system is returned unchanged); on success the returned name
is non-empty and names a file holding exactly the given data. -/
theorem writeTempFile_atomic (env : WriteTempEnv) (dir pfx data : String)
    (fs : FS)
    (hfresh : fsLookup fs (tempFileName dir pfx env.suffix) = none) :
    ((writeTempFile env dir pfx data fs).err = none ↔
      env.createErr = none ∧ env.writeErr = none ∧ env.closeErr = none) ∧
    ((writeTempFile env dir pfx data fs).err ≠ none →
      (writeTempFile env dir pfx data fs).name = "" ∧
      (writeTempFile env dir pfx data fs).fs = fs) ∧
    ((writeTempFile env dir pfx data fs).err = none →
      (writeTempFile env dir pfx data fs).name ≠ "" ∧
      fsLookup (writeTempFile env dir pfx data fs).fs
        (writeTempFile env dir pfx data fs).name = some ⟨384, data⟩) := by
  have hiff : (writeTempFile env dir pfx data fs).err = none ↔
      env.createErr = none ∧ env.writeErr = none ∧ env.closeErr = none := by
    cases hc : env.createErr <;> cases hw : env.writeErr <;>
      cases hcl : env.closeErr <;> simp [writeTempFile, hc, hw, hcl]
  refine ⟨hiff, ?_, ?_⟩
  · intro h
    rw [writeTempFile_err env dir pfx data fs hfresh h]
    exact ⟨rfl, rfl⟩
  · intro h
    obtain ⟨hc, hw, hcl⟩ := hiff.mp h
    rw [writeTempFile_ok env dir pfx data fs hc hw hcl]
    exact ⟨tempFileName_ne_empty _ _ _, fsLookup_fsSet_self _ _ _⟩

theorem writeTempFile_atomic_witness :
    (writeTempFile ⟨none, "1", none, none⟩ "" "kfix" "d" []).err = none ∧
    (writeTempFile ⟨none, "1", some "disk full", none⟩ "" "kfix" "d" []).name
      = "" :=
  ⟨(writeTempFile_atomic ⟨none, "1", none, none⟩ "" "kfix" "d" []
      (by decide)).1.mpr ⟨rfl, rfl, rfl⟩,
    ((writeTempFile_atomic ⟨none, "1", some "disk full", none⟩ "" "kfix" "d"
      [] (by decide)).2.1 (by decide)).1⟩

/-- C1: once both temp snapshots are in place, the diff routine returns the
subprocess's combined output, and a failure of the subprocess is an error
exactly when it produced no output: any output at all clears the error. -/
theorem diff_nonzero_exit_not_error (env : DiffEnv) (b1 b2 : String)
    (fs : FS) (h1c : env.wtf1.createErr = none)
    (h1w : env.wtf1.writeErr = none) (h1cl : env.wtf1.closeErr = none)
    (h2c : env.wtf2.createErr = none) (h2w : env.wtf2.writeErr = none)
    (h2cl : env.wtf2.closeErr = none) :
    ((diff env b1 b2 fs).err ≠ none ↔
      env.cmdOutput = "" ∧ env.cmdErr ≠ none) ∧
    (env.cmdOutput ≠ "" →
      (diff env b1 b2 fs).data = env.cmdOutput ∧
      (diff env b1 b2 fs).err = none) := by
  unfold diff
  rw [writeTempFile_ok env.wtf1 "" "kfix" b1 fs h1c h1w h1cl]
  dsimp only
  rw [writeTempFile_ok env.wtf2 "" "kfix" b2 _ h2c h2w h2cl]
  dsimp only
  by_cases hout : env.cmdOutput = ""
  · simp [hout]
  · have hl := string_length_pos hout
    simp [hout, hl]

theorem diff_nonzero_exit_not_error_witness :
    (diff ⟨⟨none, "1", none, none⟩, ⟨none, "2", none, none⟩, "OUT",
        some "exit status 1"⟩ "a" "b" []).data = "OUT" ∧
    (diff ⟨⟨none, "1", none, none⟩, ⟨none, "2", none, none⟩, "OUT",
        some "exit status 1"⟩ "a" "b" []).err = none :=
  (diff_nonzero_exit_not_error _ "a" "b" [] rfl rfl rfl rfl rfl rfl).2
    (by decide)

/-- Helper: with fresh, distinct temp names, `diff` restores the file system
on every exit path. -/
theorem diff_fs_eq (env : DiffEnv) (b1 b2 : String) (fs : FS)
    (h1 : fsLookup fs (tempFileName "" "kfix" env.wtf1.suffix) = none)
    (h2 : fsLookup fs (tempFileName "" "kfix" env.wtf2.suffix) = none)
    (hne : tempFileName "" "kfix" env.wtf1.suffix ≠
      tempFileName "" "kfix" env.wtf2.suffix) :
    (diff env b1 b2 fs).fs = fs := by
  have hns : tempFileName "" "kfix" env.wtf2.suffix ≠
      tempFileName "" "kfix" env.wtf1.suffix := fun hx => hne hx.symm
  cases hc1 : env.wtf1.createErr with
  | some e => simp [diff, writeTempFile, hc1]
  | none =>
    cases hw1 : env.wtf1.writeErr with
    | some e =>
      simp [diff, writeTempFile, hc1, hw1, fsRemove_fsSet_self,
        fsRemove_eq_self h1]
    | none =>
      cases hcl1 : env.wtf1.closeErr with
      | some e =>
        simp [diff, writeTempFile, hc1, hw1, hcl1, fsRemove_fsSet_self,
          fsRemove_eq_self h1]
      | none =>
        cases hc2 : env.wtf2.createErr with
        | some e =>
          simp [diff, writeTempFile, hc1, hw1, hcl1, hc2,
            fsRemove_fsSet_self, fsRemove_eq_self h1]
        | none =>
          cases hw2 : env.wtf2.writeErr with
          | some e =>
            simp only [diff, writeTempFile, hc1, hw1, hcl1, hc2, hw2]
            rw [fsRemove_fsSet_self, fsRemove_fsSet_ne _ _ hns,
              fsRemove_eq_self h2, fsRemove_fsSet_self, fsRemove_eq_self h1]
          | none =>
            cases hcl2 : env.wtf2.closeErr with
            | some e =>
              simp only [diff, writeTempFile, hc1, hw1, hcl1, hc2, hw2, hcl2]
              rw [fsRemove_fsSet_self, fsRemove_fsSet_ne _ _ hns,
                fsRemove_eq_self h2, fsRemove_fsSet_self, fsRemove_eq_self h1]
            | none =>
              simp only [diff, writeTempFile, hc1, hw1, hcl1, hc2, hw2, hcl2]
              rw [fsRemove_fsSet_self, fsRemove_fsSet_ne _ _ hns,
                fsRemove_eq_self h2, fsRemove_fsSet_self, fsRemove_eq_self h1]

/-- C4: on every exit path of `diff` — both temp files created, creation of
the second failing, creation of the first failing, or the external diff
invocation failing — every temp file that was created is removed before the
routine returns: the file system comes back exactly as it was. -/
theorem diff_cleanup (env : DiffEnv) (b1 b2 : String) (fs : FS)
    (h1 : fsLookup fs (tempFileName "" "kfix" env.wtf1.suffix) = none)
    (h2 : fsLookup fs (tempFileName "" "kfix" env.wtf2.suffix) = none)
    (hne : tempFileName "" "kfix" env.wtf1.suffix ≠
      tempFileName "" "kfix" env.wtf2.suffix) :
    (diff env b1 b2 fs).fs = fs :=
  diff_fs_eq env b1 b2 fs h1 h2 hne

theorem diff_cleanup_witness :
    (diff ⟨⟨none, "1", none, none⟩, ⟨none, "2", some "disk full", none⟩,
        "", some "exec failed"⟩ "a" "b" [("a.go", ⟨420, "x"⟩)]).fs =
      [("a.go", ⟨420, "x"⟩)] :=
  diff_cleanup _ "a" "b" _ (by decide) (by decide) (by decide)

/-! ### handleFix lemmas -/

/-- Helper: when both temp files are written and the subprocess produced
output or succeeded, `diff` returns the combined output with no error. -/
theorem diff_ok (env : DiffEnv) (b1 b2 : String) (fs : FS)
    (h1c : env.wtf1.createErr = none) (h1w : env.wtf1.writeErr = none)
    (h1cl : env.wtf1.closeErr = none) (h2c : env.wtf2.createErr = none)
    (h2w : env.wtf2.writeErr = none) (h2cl : env.wtf2.closeErr = none)
    (hout : env.cmdOutput ≠ "" ∨ env.cmdErr = none) :
    ∃ dfs, diff env b1 b2 fs = ⟨dfs, env.cmdOutput, none⟩ := by
  have herr : (if env.cmdOutput.length > 0 then none else env.cmdErr) =
      (none : Option String) := by
    rcases hout with h | h
    · rw [if_pos (string_length_pos h)]
    · by_cases hl : env.cmdOutput.length > 0
      · rw [if_pos hl]
      · rw [if_neg hl]; exact h
  unfold diff
  rw [writeTempFile_ok env.wtf1 "" "kfix" b1 fs h1c h1w h1cl]
  dsimp only
  rw [writeTempFile_ok env.wtf2 "" "kfix" b2 _ h2c h2w h2cl]
  dsimp only
  rw [herr]
  exact ⟨_, rfl⟩

/-- C5: in diff mode, `handleFix` never writes to the original file's path:
with fresh, distinct temp names the whole file system — in particular the
entry at `name` — is unchanged, whether the read, the reformat, or the
diff-utility invocation succeeds or fails. -/
theorem handleFix_diff_pure (env : HandleFixEnv) (name : String) (fs : FS)
    (h1 : fsLookup fs (tempFileName "" "kfix" env.dEnv.wtf1.suffix) = none)
    (h2 : fsLookup fs (tempFileName "" "kfix" env.dEnv.wtf2.suffix) = none)
    (hne : tempFileName "" "kfix" env.dEnv.wtf1.suffix ≠
      tempFileName "" "kfix" env.dEnv.wtf2.suffix) :
    (handleFix env true name fs).fs = fs ∧
    fsLookup (handleFix env true name fs).fs name = fsLookup fs name := by
  have hfs : (handleFix env true name fs).fs = fs := by
    unfold handleFix
    cases hr : readFile env.readErr fs name with
    | error e => rfl
    | ok src =>
      cases hg : env.gofmt with
      | error e => rfl
      | ok newSrc =>
        dsimp only
        have hd := diff_fs_eq env.dEnv src newSrc fs h1 h2 hne
        cases hdr : diff env.dEnv src newSrc fs with
        | mk dfs ddata derr =>
          rw [hdr] at hd
          cases derr <;> exact hd
  exact ⟨hfs, by rw [hfs]⟩

theorem handleFix_diff_pure_witness :
    (handleFix ⟨none, Except.ok "new", ⟨⟨none, "1", none, none⟩,
        ⟨none, "2", none, none⟩, "", some "exec failed"⟩, none⟩ true "a.go"
      [("a.go", ⟨420, "old"⟩)]).fs = [("a.go", ⟨420, "old"⟩)] :=
  (handleFix_diff_pure _ "a.go" _ (by decide) (by decide) (by decide)).1

/-- C10: in write mode, `handleFix` hands the reconciled bytes to
`ioutil.WriteFile` with permission argument `0`: the existing file keeps its
permission bits and gets its contents replaced, while the modelled
`WriteFile` semantics create a missing file with permission bits `0`. -/
theorem handleFix_write_perm (env : HandleFixEnv) (name newSrc : String)
    (fs : FS) (f : FSFile) (hfile : fsLookup fs name = some f)
    (hread : env.readErr = none) (hg : env.gofmt = Except.ok newSrc)
    (hw : env.writeErr = none) :
    (handleFix env false name fs).fs = fsWriteFile fs name newSrc 0 ∧
    fsLookup (handleFix env false name fs).fs name =
      some ⟨f.perm, newSrc⟩ ∧
    (∀ fs2 : FS, fsLookup fs2 name = none →
      fsWriteFile fs2 name newSrc 0 = fsSet fs2 name ⟨0, newSrc⟩) := by
  have hfs : (handleFix env false name fs).fs = fsWriteFile fs name newSrc 0 := by
    unfold handleFix readFile
    rw [hfile, hread, hg, hw]
    rfl
  refine ⟨hfs, ?_, ?_⟩
  · rw [hfs]
    unfold fsWriteFile
    rw [hfile]
    exact fsLookup_fsSet_self _ _ _
  · intro fs2 h2
    unfold fsWriteFile
    rw [h2]

theorem handleFix_write_perm_witness :
    (handleFix ⟨none, Except.ok "new", ⟨⟨none, "1", none, none⟩,
        ⟨none, "2", none, none⟩, "", none⟩, none⟩ false "a.go"
      [("a.go", ⟨420, "old"⟩)]).fs
      = fsWriteFile [("a.go", ⟨420, "old"⟩)] "a.go" "new" 0 ∧
    fsLookup (handleFix ⟨none, Except.ok "new", ⟨⟨none, "1", none, none⟩,
        ⟨none, "2", none, none⟩, "", none⟩, none⟩ false "a.go"
      [("a.go", ⟨420, "old"⟩)]).fs "a.go" = some ⟨420, "new"⟩ :=
  ⟨(handleFix_write_perm _ "a.go" "new" _ ⟨420, "old"⟩ (by decide) rfl rfl
      rfl).1,
    (handleFix_write_perm _ "a.go" "new" _ ⟨420, "old"⟩ (by decide) rfl rfl
      rfl).2.1⟩

/-- C8 counterexample: for the original path `./a.go`, with the diff
subprocess producing output `BODY`, the emitted output is not
`diff ./a.go fixed/./a.go` followed by the body: the header's second path is
`filepath.Join("fixed", name)`, which path-cleans `fixed/./a.go` to
`fixed/a.go`. -/
theorem handleFix_header_counterexample :
    (handleFix ⟨none, Except.ok "new", ⟨⟨none, "1", none, none⟩,
        ⟨none, "2", none, none⟩, "BODY", none⟩, none⟩ true "./a.go"
      [("./a.go", ⟨420, "old"⟩)]).out ≠ "diff ./a.go fixed/./a.go\nBODY" ∧
    (handleFix ⟨none, Except.ok "new", ⟨⟨none, "1", none, none⟩,
        ⟨none, "2", none, none⟩, "BODY", none⟩, none⟩ true "./a.go"
      [("./a.go", ⟨420, "old"⟩)]).out = "diff ./a.go fixed/a.go\nBODY" := by
  constructor
  · decide
  · decide

/-- C8 (amended): in diff mode, on a successful run the emitted output is
exactly the single header line `diff <name> <filepath.Join("fixed", name)>`
followed verbatim by the diff subprocess's combined output; the header's
second path equals `fixed/<name>` exactly when path-cleaning leaves
`fixed/<name>` unchanged (as for plain relative file names), since it is
the `Join`, not a plain concatenation. -/
theorem handleFix_diff_output (env : HandleFixEnv) (name newSrc : String)
    (fs : FS) (f : FSFile) (hfile : fsLookup fs name = some f)
    (hread : env.readErr = none) (hg : env.gofmt = Except.ok newSrc)
    (h1c : env.dEnv.wtf1.createErr = none)
    (h1w : env.dEnv.wtf1.writeErr = none)
    (h1cl : env.dEnv.wtf1.closeErr = none)
    (h2c : env.dEnv.wtf2.createErr = none)
    (h2w : env.dEnv.wtf2.writeErr = none)
    (h2cl : env.dEnv.wtf2.closeErr = none)
    (hout : env.dEnv.cmdOutput ≠ "" ∨ env.dEnv.cmdErr = none) :
    (handleFix env true name fs).out =
      "diff " ++ name ++ " " ++ filepathJoin "fixed" name ++ "\n" ++
        env.dEnv.cmdOutput ∧
    (handleFix env true name fs).err = none ∧
    (filepathClean ("fixed/" ++ name) = "fixed/" ++ name →
      filepathJoin "fixed" name = "fixed/" ++ name) := by
  obtain ⟨dfs, hd⟩ :=
    diff_ok env.dEnv f.content newSrc fs h1c h1w h1cl h2c h2w h2cl hout
  have hrun : handleFix env true name fs =
      ⟨dfs, none, "diff " ++ name ++ " " ++ filepathJoin "fixed" name ++
        "\n" ++ env.dEnv.cmdOutput⟩ := by
    unfold handleFix readFile
    rw [hfile, hread, hg]
    dsimp only
    rw [hd]
    rfl
  refine ⟨by rw [hrun], by rw [hrun], ?_⟩
  intro hc
  by_cases hn : name = ""
  · rw [hn] at hc
    exact absurd hc (by decide)
  · unfold filepathJoin
    rw [if_neg (by decide), if_neg hn]
    have hfx : ("fixed" : String) ++ "/" ++ name = "fixed/" ++ name := by
      have : ("fixed" : String) ++ "/" = "fixed/" := by decide
      rw [this]
    rw [hfx]
    exact hc

theorem handleFix_diff_output_witness :
    (handleFix ⟨none, Except.ok "new", ⟨⟨none, "1", none, none⟩,
        ⟨none, "2", none, none⟩, "BODY", some "exit status 1"⟩, none⟩ true
      "a.go" [("a.go", ⟨420, "old"⟩)]).out = "diff a.go fixed/a.go\nBODY" :=
  ((handleFix_diff_output ⟨none, Except.ok "new", ⟨⟨none, "1", none, none⟩,
      ⟨none, "2", none, none⟩, "BODY", some "exit status 1"⟩, none⟩ "a.go"
      "new" [("a.go", ⟨420, "old"⟩)] ⟨420, "old"⟩ (by decide) rfl rfl rfl
      rfl rfl rfl rfl rfl (Or.inl (by decide))).1).trans (by decide)

/-! ### main-driver lemmas -/

/-- Helper: exit code and reporting of the argument loop, per the first
failure it encounters. -/
theorem processArgs_spec (args : List (String × ArgEnv)) :
    ∀ fs : FS,
      ((processArgs fs args).exitCode =
        match firstFailure args with
        | some (_, .importFail) => 1
        | some (_, .fixFail) => 5
        | none => 0) ∧
      (∀ p, firstFailure args = some (p, .importFail) →
        (processArgs fs args).reportedPath = some p) ∧
      (∀ p, firstFailure args = some (p, .fixFail) →
        ∃ e, (processArgs fs args).abortedPkg = some (p, e)) := by
  induction args with
  | nil => intro fs; simp [processArgs, firstFailure]
  | cons hd tl ih =>
    intro fs
    obtain ⟨arg, a⟩ := hd
    cases hi : a.importErr with
    | some e => simp [processArgs, firstFailure, hi]
    | none =>
      cases hf : a.fixErr with
      | some e => simp [processArgs, firstFailure, hi, hf]
      | none =>
        simp only [processArgs, firstFailure, hi, hf]
        exact ih (applyWrites fs a.fixWrites)

/-- Helper: the argument loop walks a prefix of non-failing arguments by
applying their writes in order and recording them as attempted. -/
theorem processArgs_append_ok (pre : List (String × ArgEnv)) :
    (∀ p ∈ pre, p.2.importErr = none ∧ p.2.fixErr = none) →
    ∀ (fs : FS) (rest : List (String × ArgEnv)),
      processArgs fs (pre ++ rest) =
        ⟨(processArgs (applyArgWrites fs pre) rest).exitCode,
          (processArgs (applyArgWrites fs pre) rest).fs,
          pre.map Prod.fst ++
            (processArgs (applyArgWrites fs pre) rest).attempted,
          (processArgs (applyArgWrites fs pre) rest).reportedPath,
          (processArgs (applyArgWrites fs pre) rest).abortedPkg⟩ := by
  induction pre with
  | nil => intro _ fs rest; rfl
  | cons hd tl ih =>
    intro hpre fs rest
    obtain ⟨arg, a⟩ := hd
    obtain ⟨hi, hf⟩ := hpre (arg, a) (List.mem_cons_self _ _)
    have hpre' : ∀ p ∈ tl, p.2.importErr = none ∧ p.2.fixErr = none :=
      fun p hp => hpre p (List.mem_cons_of_mem _ hp)
    have hi' : a.importErr = none := hi
    have hf' : a.fixErr = none := hf
    have hstep := ih hpre' (applyWrites fs a.fixWrites) rest
    simp only [List.cons_append, processArgs, hi', hf', List.map_cons,
      List.append_eq]
    rw [hstep]
    simp [applyArgWrites]

/-- C2: in every run that reaches fix application, the fixes handed to the
engine are exactly the caller-supplied `allFixes` in declaration order —
`usage`, the only place that sorts the list by name, was never invoked in
such a run (it always exits the process), so no name-sort precedes
application. -/
theorem mainRun_engine_order (allFixes : List Fix) (env : MainEnv) (fs : FS)
    (l : List Fix) (h : (mainRun allFixes env fs).engineFixes = some l) :
    l = allFixes ∧ (mainRun allFixes env fs).usageFixes = none := by
  unfold mainRun at h ⊢
  split at h
  · simp at h
  · rename_i hne
    split at h
    · simp at h
    · rename_i hwd
      rw [if_neg hne]
      simp only at h
      exact ⟨(Option.some.inj h).symm, rfl⟩

theorem mainRun_engine_order_witness :
    ([Fix.mk "b" "B", Fix.mk "a" "A"] : List Fix) =
      [Fix.mk "b" "B", Fix.mk "a" "A"] ∧
    (mainRun [Fix.mk "b" "B", Fix.mk "a" "A"]
      ⟨none, [("p", ⟨none, [], none⟩)]⟩ []).usageFixes = none :=
  mainRun_engine_order [Fix.mk "b" "B", Fix.mk "a" "A"]
    ⟨none, [("p", ⟨none, [], none⟩)]⟩ [] [Fix.mk "b" "B", Fix.mk "a" "A"]
    (by decide)

/-- C3: when the working-directory lookup succeeds, the process exit code is
exactly 93 with no path arguments (after rendering the usage text, which
sorts the fixes for display), 1 when the run's first failure is a path that
does not resolve (reported), 5 when it is a fix-application failure
(reported with its cause), and 0 when every argument completes. -/
theorem mainRun_exit_codes (allFixes : List Fix) (env : MainEnv) (fs : FS)
    (hwd : env.getwdErr = none) :
    ((mainRun allFixes env fs).exitCode =
      match firstFailure env.args with
      | some (_, .importFail) => 1
      | some (_, .fixFail) => 5
      | none => if env.args.isEmpty then 93 else 0) ∧
    (env.args.isEmpty →
      (mainRun allFixes env fs).usageFixes = some (sortByName allFixes)) ∧
    (∀ p, firstFailure env.args = some (p, .importFail) →
      (mainRun allFixes env fs).reportedPath = some p) ∧
    (∀ p, firstFailure env.args = some (p, .fixFail) →
      ∃ e, (mainRun allFixes env fs).abortedPkg = some (p, e)) := by
  unfold mainRun
  cases hargs : env.args with
  | nil => simp [firstFailure]
  | cons hd tl =>
    rw [hwd]
    have hspec := processArgs_spec (hd :: tl) fs
    simp only [List.isEmpty_cons, Bool.false_eq_true, if_false]
    exact ⟨hspec.1, fun hx => absurd hx (by simp), hspec.2.1, hspec.2.2⟩

theorem mainRun_exit_codes_witness :
    (mainRun [] ⟨none, [("good", ⟨none, [("f.go", "new")], none⟩),
        ("bad", ⟨none, [], some "unfixable"⟩)]⟩ []).exitCode = 5 ∧
    (mainRun [] ⟨none, []⟩ []).exitCode = 93 :=
  ⟨(mainRun_exit_codes [] ⟨none, [("good", ⟨none, [("f.go", "new")], none⟩),
        ("bad", ⟨none, [], some "unfixable"⟩)]⟩ [] rfl).1.trans (by decide),
    (mainRun_exit_codes [] ⟨none, []⟩ [] rfl).1.trans (by decide)⟩

/-- C7: package arguments are processed strictly in command-line order; at
the first fix-application failure the run exits with code 5 naming that
package and its cause, no later argument is attempted, and every file
written up to that point — the earlier packages' writes and the failing
package's own writes before the failure — remains on disk (no rollback). -/
theorem mainRun_first_fix_failure (allFixes : List Fix) (fs : FS)
    (pre : List (String × ArgEnv)) (arg : String) (a : ArgEnv)
    (rest : List (String × ArgEnv))
    (hpre : ∀ p ∈ pre, p.2.importErr = none ∧ p.2.fixErr = none)
    (himp : a.importErr = none) (hfix : a.fixErr ≠ none) :
    (mainRun allFixes ⟨none, pre ++ (arg, a) :: rest⟩ fs).exitCode = 5 ∧
    (mainRun allFixes ⟨none, pre ++ (arg, a) :: rest⟩ fs).attempted =
      pre.map Prod.fst ++ [arg] ∧
    (mainRun allFixes ⟨none, pre ++ (arg, a) :: rest⟩ fs).fs =
      applyWrites (applyArgWrites fs pre) a.fixWrites ∧
    ∃ e, (mainRun allFixes ⟨none, pre ++ (arg, a) :: rest⟩ fs).abortedPkg =
      some (arg, e) := by
  obtain ⟨e, he⟩ := Option.ne_none_iff_exists'.mp hfix
  have hne : ¬ ((pre ++ (arg, a) :: rest).isEmpty = true) := by
    simp [List.isEmpty_iff]
  have hloop := processArgs_append_ok pre hpre fs ((arg, a) :: rest)
  have hhead : processArgs (applyArgWrites fs pre) ((arg, a) :: rest) =
      ⟨5, applyWrites (applyArgWrites fs pre) a.fixWrites, [arg], none,
        some (arg, e)⟩ := by
    simp [processArgs, himp, he]
  unfold mainRun
  rw [if_neg hne]
  dsimp only
  rw [hloop, hhead]
  exact ⟨rfl, rfl, rfl, e, rfl⟩

theorem mainRun_first_fix_failure_witness :
    (mainRun [] ⟨none, [("p1", ⟨none, [("a.go", "newA")], none⟩),
        ("p2", ⟨none, [("b.go", "newB")], some "unfixable"⟩),
        ("p3", ⟨none, [("c.go", "newC")], none⟩)]⟩ []).exitCode = 5 ∧
    (mainRun [] ⟨none, [("p1", ⟨none, [("a.go", "newA")], none⟩),
        ("p2", ⟨none, [("b.go", "newB")], some "unfixable"⟩),
        ("p3", ⟨none, [("c.go", "newC")], none⟩)]⟩ []).attempted =
      ["p1", "p2"] :=
  ⟨(mainRun_first_fix_failure [] [] [("p1", ⟨none, [("a.go", "newA")], none⟩)]
      "p2" ⟨none, [("b.go", "newB")], some "unfixable"⟩
      [("p3", ⟨none, [("c.go", "newC")], none⟩)] (by decide) rfl
      (by decide)).1,
    ((mainRun_first_fix_failure [] []
      [("p1", ⟨none, [("a.go", "newA")], none⟩)]
      "p2" ⟨none, [("b.go", "newB")], some "unfixable"⟩
      [("p3", ⟨none, [("c.go", "newC")], none⟩)] (by decide) rfl
      (by decide)).2.1).trans (by decide)⟩

/-- C6 counterexample: with arguments `good` (whose fix writes `f.go` in
write mode) followed by `bad` (which fails to resolve), the run reports
`bad` and exits with code 1, yet `f.go` has been modified on disk — so "no
files are modified" does not hold for every non-resolving argument. -/
theorem mainRun_import_fail_modifies :
    (mainRun [] ⟨none, [("good", ⟨none, [("f.go", "new")], none⟩),
        ("bad", ⟨some "no such package", [], none⟩)]⟩
      [("f.go", ⟨420, "old"⟩)]).exitCode = 1 ∧
    (mainRun [] ⟨none, [("good", ⟨none, [("f.go", "new")], none⟩),
        ("bad", ⟨some "no such package", [], none⟩)]⟩
      [("f.go", ⟨420, "old"⟩)]).reportedPath = some "bad" ∧
    fsLookup (mainRun [] ⟨none, [("good", ⟨none, [("f.go", "new")], none⟩),
        ("bad", ⟨some "no such package", [], none⟩)]⟩
      [("f.go", ⟨420, "old"⟩)]).fs "f.go" ≠ some ⟨420, "old"⟩ := by
  refine ⟨by decide, by decide, by decide⟩

/-- C6 (amended): for the first package argument that does not resolve, the
process reports the offending path and exits with code 1; that argument and
the ones after it modify no files, but files already written by earlier
successful arguments remain on disk — in particular, when the failing
argument is the first one, no files are modified at all. -/
theorem mainRun_import_failure (allFixes : List Fix) (fs : FS)
    (pre : List (String × ArgEnv)) (arg : String) (a : ArgEnv)
    (rest : List (String × ArgEnv))
    (hpre : ∀ p ∈ pre, p.2.importErr = none ∧ p.2.fixErr = none)
    (himp : a.importErr ≠ none) :
    (mainRun allFixes ⟨none, pre ++ (arg, a) :: rest⟩ fs).exitCode = 1 ∧
    (mainRun allFixes ⟨none, pre ++ (arg, a) :: rest⟩ fs).reportedPath =
      some arg ∧
    (mainRun allFixes ⟨none, pre ++ (arg, a) :: rest⟩ fs).fs =
      applyArgWrites fs pre ∧
    (mainRun allFixes ⟨none, pre ++ (arg, a) :: rest⟩ fs).attempted =
      pre.map Prod.fst ++ [arg] ∧
    (pre = [] → (mainRun allFixes ⟨none, pre ++ (arg, a) :: rest⟩ fs).fs
      = fs) := by
  obtain ⟨e, he⟩ := Option.ne_none_iff_exists'.mp himp
  have hne : ¬ ((pre ++ (arg, a) :: rest).isEmpty = true) := by
    simp [List.isEmpty_iff]
  have hloop := processArgs_append_ok pre hpre fs ((arg, a) :: rest)
  have hhead : processArgs (applyArgWrites fs pre) ((arg, a) :: rest) =
      ⟨1, applyArgWrites fs pre, [arg], some arg, none⟩ := by
    simp [processArgs, he]
  unfold mainRun
  rw [if_neg hne]
  dsimp only
  rw [hloop, hhead]
  refine ⟨rfl, rfl, rfl, rfl, ?_⟩
  intro hp
  subst hp
  rfl

theorem mainRun_import_failure_witness :
    (mainRun [] ⟨none, [("bad", ⟨some "no such package", [], none⟩)]⟩
      [("f.go", ⟨420, "old"⟩)]).exitCode = 1 ∧
    (mainRun [] ⟨none, [("bad", ⟨some "no such package", [], none⟩)]⟩
      [("f.go", ⟨420, "old"⟩)]).fs = [("f.go", ⟨420, "old"⟩)] :=
  ⟨(mainRun_import_failure [] [("f.go", ⟨420, "old"⟩)] [] "bad"
      ⟨some "no such package", [], none⟩ [] (by decide) (by decide)).1,
    (mainRun_import_failure [] [("f.go", ⟨420, "old"⟩)] [] "bad"
      ⟨some "no such package", [], none⟩ [] (by decide) (by decide)).2.2.2.2
      rfl⟩

end KlogToLogr
